import Mathlib

/-!
Shallow embedding of the `simplecolor` Rust crate (generic Rgb / Rgba colors).

Modelling conventions:
* Unsigned integer channels (`u8`/`u16`/`u32`/`u64`) are embedded as `ℕ`
  together with the bound `x ≤ MAX_W`; the `-` of Rust (which panics on
  underflow) is embedded as `checkedSub` returning `Option ℕ`, and the `+`
  (which panics on overflow in debug builds) as `checkedAdd`.
* Floating point channels are embedded as `FloatVal`: NaN, the two
  infinities, and exact finite values (`ℚ`).  The operations the claims are
  about (`clamp`, `normalised`) perform only comparisons and selections, so
  this exact-value model is faithful for both `f32` and `f64`; floating-point
  rounding only matters for `integral_to_float`, where the claim itself
  abstracts it away ("subject to floating-point rounding of that division").
* `std::cmp::partial_min` / `partial_max` (deprecated Rust 1.x functions used
  by `clamp` in `src/lib.rs`) are embedded as `pmin` / `pmax`, parameterised
  by the `PartialOrd` dictionary `pc : α → α → Option Ordering` (the
  `partial_cmp` method).  They return `none` when the operands are
  incomparable, exactly as the Rust originals.
* A Rust panic is an `Except.error` carrying a `PanicKind`: `assertFailed`
  for the `assert!(max >= min)` in `clamp`, `unwrapFailed` for the
  `.unwrap()` of a `None` comparison result.
-/

namespace Simplecolor

/-- Outcome of a Rust panic inside `clamp` (`src/lib.rs`): either the
`assert!(max >= min)` fired, or `.unwrap()` was called on `None`. -/
inductive PanicKind where
  | assertFailed
  | unwrapFailed
deriving DecidableEq, Repr

/-- Exact model of an IEEE floating point channel value, for the purposes of
comparison-only operations: NaN, the infinities, and exact finite values. -/
inductive FloatVal where
  | nan
  | negInf
  | finite (q : ℚ)
  | posInf
deriving DecidableEq, Repr

/-- IEEE `partial_cmp` on `FloatVal`: `none` whenever either operand is NaN,
otherwise the usual linear order with `-∞ <` finite `< +∞`. -/
def FloatVal.pcmp : FloatVal → FloatVal → Option Ordering
  | .nan, _ => none
  | _, .nan => none
  | .negInf, .negInf => some .eq
  | .negInf, _ => some .lt
  | _, .negInf => some .gt
  | .posInf, .posInf => some .eq
  | .posInf, _ => some .gt
  | _, .posInf => some .lt
  | .finite a, .finite b =>
      if a < b then some .lt else if a = b then some .eq else some .gt

/-- Total `partial_cmp` for the unsigned integer channels embedded as `ℕ`. -/
def natPcmp (a b : ℕ) : Option Ordering :=
  if a < b then some .lt else if a = b then some .eq else some .gt

/-- Proof-side interpretation of the non-NaN float values into the linear
order `WithBot (WithTop ℚ)` (`⊥` for `-∞`, coercion for finite values, `⊤`
inside `WithTop` for `+∞`).  NaN is mapped to `⊥` as a throwaway value; every
lemma mentioning `toER` carries `≠ nan` hypotheses for its arguments. -/
def FloatVal.toER : FloatVal → WithBot (WithTop ℚ)
  | .nan => ⊥
  | .negInf => ⊥
  | .finite q => ((q : WithTop ℚ) : WithBot (WithTop ℚ))
  | .posInf => ((⊤ : WithTop ℚ) : WithBot (WithTop ℚ))

/-- Embedding of `std::cmp::partial_min`: the smaller operand, `none` if they
are incomparable (ties return the first operand). -/
def pmin (pc : α → α → Option Ordering) (v1 v2 : α) : Option α :=
  match pc v1 v2 with
  | some .lt => some v1
  | some .eq => some v1
  | some .gt => some v2
  | none => none

/-- Embedding of `std::cmp::partial_max`: the larger operand, `none` if they
are incomparable (ties return the second operand). -/
def pmax (pc : α → α → Option Ordering) (v1 v2 : α) : Option α :=
  match pc v1 v2 with
  | some .lt => some v2
  | some .eq => some v2
  | some .gt => some v1
  | none => none

/-- Embedding of `PartialOrd::ge` (`a >= b`). -/
def pge (pc : α → α → Option Ordering) (a b : α) : Bool :=
  match pc a b with
  | some .gt => true
  | some .eq => true
  | _ => false

/-- Embedding of `PartialOrd::le` (`a <= b`). -/
def ple (pc : α → α → Option Ordering) (a b : α) : Bool :=
  match pc a b with
  | some .lt => true
  | some .eq => true
  | _ => false

/-- Embedding of `PartialOrd::lt` (`a < b`). -/
def plt (pc : α → α → Option Ordering) (a b : α) : Bool :=
  match pc a b with
  | some .lt => true
  | _ => false

/-- Embedding of `PartialOrd::gt` (`a > b`). -/
def pgt (pc : α → α → Option Ordering) (a b : α) : Bool :=
  match pc a b with
  | some .gt => true
  | _ => false

/-- Embedding of `clamp` from `src/lib.rs`:
`assert!(max >= min); partial_min(x, max).and_then(|y| partial_max(y, min)).unwrap()`.
The assert failure and the unwrap of `None` are the two panic outcomes. -/
def clamp (pc : α → α → Option Ordering) (x mn mx : α) : Except PanicKind α :=
  if pge pc mx mn then
    match (pmin pc x mx).bind (fun y => pmax pc y mn) with
    | some z => .ok z
    | none => .error .unwrapFailed
  else .error .assertFailed

/-- Embedding of `clamp_to_zero_one` from `src/lib.rs`:
`clamp(x, T::zero(), T::one())` at a floating channel type. -/
def clamp_to_zero_one (x : FloatVal) : Except PanicKind FloatVal :=
  clamp FloatVal.pcmp x (.finite 0) (.finite 1)

/-- Embedding of `<f32 as Channel>::normalised` / `<f64 as Channel>::normalised`
from `src/channel.rs`: `clamp_to_zero_one(self)`. -/
def FloatVal.normalised (x : FloatVal) : Except PanicKind FloatVal :=
  clamp_to_zero_one x

/-- Rust `-` on an unsigned integer type: panics (here: `none`) on underflow. -/
def checkedSub (a b : ℕ) : Option ℕ :=
  if b ≤ a then some (a - b) else none

/-- Rust `+` on an unsigned integer type with maximum value `maxVal`:
panics (here: `none`) on overflow. -/
def checkedAdd (maxVal a b : ℕ) : Option ℕ :=
  if a + b ≤ maxVal then some (a + b) else none

/-- Embedding of `<u8 as Channel>::inverted`: `u8::max_value() - self`. -/
def U8.inverted (x : ℕ) : Option ℕ := checkedSub 255 x

/-- Embedding of `<u16 as Channel>::inverted`: `u16::max_value() - self`. -/
def U16.inverted (x : ℕ) : Option ℕ := checkedSub 65535 x

/-- Embedding of `<u32 as Channel>::inverted`: `u32::max_value() - self`. -/
def U32.inverted (x : ℕ) : Option ℕ := checkedSub 4294967295 x

/-- Embedding of `<u64 as Channel>::inverted`: `u64::max_value() - self`. -/
def U64.inverted (x : ℕ) : Option ℕ := checkedSub 18446744073709551615 x

/-- Embedding of `integral_to_float` from `src/lib.rs`:
`cast(x) / cast(I::max_value())`, over an integral type whose maximum value is
`maxVal` (division taken exactly, per the rounding abstraction above). -/
def integral_to_float (maxVal : ℕ) (x : ℕ) : ℚ :=
  (x : ℚ) / (maxVal : ℚ)

/-- Embedding of the `Rgb` struct from `src/rgb.rs`. -/
structure Rgb (α : Type) where
  r : α
  g : α
  b : α
deriving DecidableEq, Repr

/-- Embedding of the `Rgba` struct from `src/rgba.rs`: an `Rgb` plus alpha. -/
structure Rgba (α : Type) where
  rgb : Rgb α
  a : α
deriving DecidableEq, Repr

/-- Embedding of `Rgb::with_components`. -/
def Rgb.with_components (r g b : α) : Rgb α := ⟨r, g, b⟩

/-- Embedding of `Rgba::with_components`. -/
def Rgba.with_components (r g b a : α) : Rgba α :=
  ⟨Rgb.with_components r g b, a⟩

/-- Embedding of `Rgb::rgba`: `Rgba::with_components(self.r, self.g, self.b, a)`. -/
def Rgb.rgba (c : Rgb α) (a : α) : Rgba α :=
  Rgba.with_components c.r c.g c.b a

/-- Embedding of `Rgba::r`. -/
def Rgba.r (c : Rgba α) : α := c.rgb.r

/-- Embedding of `Rgba::g`. -/
def Rgba.g (c : Rgba α) : α := c.rgb.g

/-- Embedding of `Rgba::b`. -/
def Rgba.b (c : Rgba α) : α := c.rgb.b

/-- Embedding of `Rgb::new`: every component set to zero. -/
def Rgb.new (α : Type) [Zero α] : Rgb α :=
  Rgb.with_components 0 0 0

/-- Embedding of `<Rgb as Default>::default`: identical to `Rgb::new()`. -/
def Rgb.default (α : Type) [Zero α] : Rgb α := Rgb.new α

/-- Embedding of `Rgba::new`: `Rgb::new().rgba(T::one())`. -/
def Rgba.new (α : Type) [Zero α] [One α] : Rgba α :=
  (Rgb.new α).rgba 1

/-- Embedding of `<Rgba as Default>::default`: identical to `Rgba::new()`. -/
def Rgba.default (α : Type) [Zero α] [One α] : Rgba α := Rgba.new α

/-- Embedding of `Rgb::set_r` (the source mutates `self.r = r`). -/
def Rgb.set_r (c : Rgb α) (v : α) : Rgb α := { c with r := v }

/-- Embedding of `Rgb::set_g`. -/
def Rgb.set_g (c : Rgb α) (v : α) : Rgb α := { c with g := v }

/-- Embedding of `Rgb::set_b`. -/
def Rgb.set_b (c : Rgb α) (v : α) : Rgb α := { c with b := v }

/-- Embedding of `Rgba::set_r`: delegates to `self.rgb.set_r(r)`. -/
def Rgba.set_r (c : Rgba α) (v : α) : Rgba α := { c with rgb := c.rgb.set_r v }

/-- Embedding of `Rgba::set_g`. -/
def Rgba.set_g (c : Rgba α) (v : α) : Rgba α := { c with rgb := c.rgb.set_g v }

/-- Embedding of `Rgba::set_b`. -/
def Rgba.set_b (c : Rgba α) (v : α) : Rgba α := { c with rgb := c.rgb.set_b v }

/-- Embedding of `Rgba::set_a` (the source mutates `self.a = a`). -/
def Rgba.set_a (c : Rgba α) (v : α) : Rgba α := { c with a := v }

/-- Embedding of `Add for Rgb`:
`Rgb::with_components(self.r() + other.r(), self.g() + other.g(), self.b() + other.b())`. -/
def Rgb.add [Add α] (c o : Rgb α) : Rgb α :=
  Rgb.with_components (c.r + o.r) (c.g + o.g) (c.b + o.b)

/-- Embedding of `Sub for Rgb`: piecewise `-` on the components. -/
def Rgb.sub [Sub α] (c o : Rgb α) : Rgb α :=
  Rgb.with_components (c.r - o.r) (c.g - o.g) (c.b - o.b)

/-- Embedding of `Mul for Rgb`: piecewise `*` on the components. -/
def Rgb.mul [Mul α] (c o : Rgb α) : Rgb α :=
  Rgb.with_components (c.r * o.r) (c.g * o.g) (c.b * o.b)

/-- Embedding of `Add for Rgba`:
`(self.rgb + other.rgb).rgba(self.a + other.a)`. -/
def Rgba.add [Add α] (c o : Rgba α) : Rgba α :=
  (c.rgb.add o.rgb).rgba (c.a + o.a)

/-- Embedding of `Sub for Rgba`, exactly as written in `src/rgba.rs`:
`(self.rgb * other.rgb).rgba(self.a * other.a)` — the body multiplies. -/
def Rgba.sub [Mul α] (c o : Rgba α) : Rgba α :=
  (c.rgb.mul o.rgb).rgba (c.a * o.a)

/-- Embedding of `Add for Rgb` at the `u8` channel type, with the panicking
overflow semantics of the channel `+` threaded through. -/
def Rgb.addU8 (c o : Rgb ℕ) : Option (Rgb ℕ) := do
  let r ← checkedAdd 255 c.r o.r
  let g ← checkedAdd 255 c.g o.g
  let b ← checkedAdd 255 c.b o.b
  pure (Rgb.with_components r g b)

/-- Embedding of `Add for Rgba` at the `u8` channel type. -/
def Rgba.addU8 (c o : Rgba ℕ) : Option (Rgba ℕ) := do
  let rgb ← c.rgb.addU8 o.rgb
  let a ← checkedAdd 255 c.a o.a
  pure (rgb.rgba a)

/-- Embedding of `<Rgb as Color>::clamp_scalar`:
each component clamped between the two scalar bounds (a panic in any
per-channel `clamp` aborts the whole call). -/
def Rgb.clamp_scalar (pc : α → α → Option Ordering) (c : Rgb α) (mn mx : α) :
    Except PanicKind (Rgb α) := do
  let r ← clamp pc c.r mn mx
  let g ← clamp pc c.g mn mx
  let b ← clamp pc c.b mn mx
  pure (Rgb.with_components r g b)

/-- Embedding of `Rgb::from_integral_components` at a floating channel type:
each component is `integral_to_float` of the corresponding integer. -/
def Rgb.from_integral_components (maxVal r g b : ℕ) : Rgb ℚ :=
  Rgb.with_components
    (integral_to_float maxVal r)
    (integral_to_float maxVal g)
    (integral_to_float maxVal b)

instance {ε σ : Type} [DecidableEq ε] [DecidableEq σ] : DecidableEq (Except ε σ) :=
  fun x y =>
    match x, y with
    | .ok u, .ok v =>
        if h : u = v then .isTrue (by rw [h]) else .isFalse (by simp [h])
    | .error e, .error f =>
        if h : e = f then .isTrue (by rw [h]) else .isFalse (by simp [h])
    | .ok _, .error _ => .isFalse (by simp)
    | .error _, .ok _ => .isFalse (by simp)

theorem checkedSub_max (M x : ℕ) (h : x ≤ M) :
    checkedSub M x = some (M - x) ∧ checkedSub M (M - x) = some x := by
  refine ⟨by simp [checkedSub, h], ?_⟩
  simp [checkedSub, Nat.sub_le, Nat.sub_sub_self h]

/-- C1: the claim says `a - b` on `Rgba` colors subtracts channel-wise; the
source body of `Sub for Rgba` instead multiplies channel-wise (a copy of the
`Mul` body).  At `a = (5,5,5,5)`, `b = (2,2,2,2)` the code yields
`(10,10,10,10)`, not the claimed `(3,3,3,3)`. -/
theorem c1_rgba_sub_multiplies :
    Rgba.sub (Rgba.with_components (5 : ℚ) 5 5 5) (Rgba.with_components 2 2 2 2)
      = Rgba.with_components 10 10 10 10 ∧
    (Rgba.sub (Rgba.with_components (5 : ℚ) 5 5 5) (Rgba.with_components 2 2 2 2)).r
      ≠ (5 : ℚ) - 2 := by
  constructor
  · simp only [Rgba.sub, Rgb.mul, Rgb.rgba, Rgba.with_components, Rgb.with_components,
      Rgba.mk.injEq, Rgb.mk.injEq]
    norm_num
  · simp only [Rgba.sub, Rgb.mul, Rgb.rgba, Rgba.with_components, Rgb.with_components,
      Rgba.r]
    norm_num

/-- C2 (counterexample): `normalised` applied to NaN does not return the NaN
unchanged — the claim as stated is false at this input. -/
theorem c2_nan_not_propagated :
    FloatVal.normalised FloatVal.nan ≠ Except.ok FloatVal.nan := by
  decide

/-- C2 (amended): for a NaN channel input, `normalised` (via `clamp`) panics
on the `.unwrap()` of the `None` comparison result, rather than propagating
the NaN or forcing it to a bound. -/
theorem c2_nan_normalised_panics :
    FloatVal.normalised FloatVal.nan = Except.error PanicKind.unwrapFailed := by
  decide

/-- C3: for each unsigned width `W ∈ {8,16,32,64}` and every `x ≤ MAX_W`,
`inverted x` succeeds (the subtraction never underflows) with value
`MAX_W - x`, and applying `inverted` twice is the identity. -/
theorem c3_unsigned_inverted (x : ℕ) :
    (x ≤ 255 →
      U8.inverted x = some (255 - x) ∧ (U8.inverted x).bind U8.inverted = some x) ∧
    (x ≤ 65535 →
      U16.inverted x = some (65535 - x) ∧ (U16.inverted x).bind U16.inverted = some x) ∧
    (x ≤ 4294967295 →
      U32.inverted x = some (4294967295 - x) ∧
        (U32.inverted x).bind U32.inverted = some x) ∧
    (x ≤ 18446744073709551615 →
      U64.inverted x = some (18446744073709551615 - x) ∧
        (U64.inverted x).bind U64.inverted = some x) := by
  refine ⟨fun h => ?_, fun h => ?_, fun h => ?_, fun h => ?_⟩ <;>
    [obtain ⟨h1, h2⟩ := checkedSub_max 255 x h;
     obtain ⟨h1, h2⟩ := checkedSub_max 65535 x h;
     obtain ⟨h1, h2⟩ := checkedSub_max 4294967295 x h;
     obtain ⟨h1, h2⟩ := checkedSub_max 18446744073709551615 x h] <;>
    exact ⟨h1, by simp [U8.inverted, U16.inverted, U32.inverted, U64.inverted, h1, h2]⟩

theorem c3_unsigned_inverted_witness :
    U8.inverted 3 = some 252 ∧ (U8.inverted 3).bind U8.inverted = some 3 :=
  (c3_unsigned_inverted 3).1 (by decide)

/-- C5: color addition is exactly the per-channel sum (alpha included for
`Rgba`), with no clamp applied afterwards; at the `u8` channel type the same
holds within the non-overflow domain. -/
theorem c5_add_piecewise :
    (∀ c o : Rgb ℚ,
      (c.add o).r = c.r + o.r ∧ (c.add o).g = c.g + o.g ∧ (c.add o).b = c.b + o.b) ∧
    (∀ c o : Rgba ℚ,
      (c.add o).r = c.r + o.r ∧ (c.add o).g = c.g + o.g ∧
      (c.add o).b = c.b + o.b ∧ (c.add o).a = c.a + o.a) ∧
    (∀ c o : Rgb ℕ, c.r + o.r ≤ 255 → c.g + o.g ≤ 255 → c.b + o.b ≤ 255 →
      c.addU8 o = some (Rgb.with_components (c.r + o.r) (c.g + o.g) (c.b + o.b))) ∧
    (∀ c o : Rgba ℕ,
      c.r + o.r ≤ 255 → c.g + o.g ≤ 255 → c.b + o.b ≤ 255 → c.a + o.a ≤ 255 →
      c.addU8 o = some (Rgba.with_components (c.r + o.r) (c.g + o.g)
        (c.b + o.b) (c.a + o.a))) := by
  refine ⟨fun c o => ⟨rfl, rfl, rfl⟩, fun c o => ⟨rfl, rfl, rfl, rfl⟩,
    fun c o hr hg hb => ?_, fun c o hr hg hb ha => ?_⟩
  · simp [Rgb.addU8, checkedAdd, hr, hg, hb]
  · simp only [Rgba.r, Rgba.g, Rgba.b] at hr hg hb
    simp [Rgba.addU8, Rgb.addU8, checkedAdd, hr, hg, hb, ha,
      Rgb.rgba, Rgba.with_components, Rgb.with_components, Rgba.r, Rgba.g, Rgba.b]

theorem c5_add_piecewise_witness :
    ((Rgb.with_components (9/10 : ℚ) (9/10) (9/10)).add
        (Rgb.with_components (9/10) (9/10) (9/10))).r = 9/10 + 9/10 ∧
    Rgb.addU8 (Rgb.with_components 1 2 3) (Rgb.with_components 4 5 6)
      = some (Rgb.with_components (1 + 4) (2 + 5) (3 + 6)) :=
  ⟨(c5_add_piecewise.1 _ _).1,
   c5_add_piecewise.2.2.1 _ _ (by decide) (by decide) (by decide)⟩

/-- C8: `from_integral_components` at each width `W ∈ {8,16,32,64}` yields
exactly the channels `r / MAX_W`, `g / MAX_W`, `b / MAX_W`, each converted
independently (division taken exactly, matching the claim's abstraction over
floating-point rounding). -/
theorem c8_from_integral_components (r g b : ℕ) :
    (r ≤ 255 → g ≤ 255 → b ≤ 255 →
      (Rgb.from_integral_components 255 r g b).r = (r : ℚ) / 255 ∧
      (Rgb.from_integral_components 255 r g b).g = (g : ℚ) / 255 ∧
      (Rgb.from_integral_components 255 r g b).b = (b : ℚ) / 255) ∧
    (r ≤ 65535 → g ≤ 65535 → b ≤ 65535 →
      (Rgb.from_integral_components 65535 r g b).r = (r : ℚ) / 65535 ∧
      (Rgb.from_integral_components 65535 r g b).g = (g : ℚ) / 65535 ∧
      (Rgb.from_integral_components 65535 r g b).b = (b : ℚ) / 65535) ∧
    (r ≤ 4294967295 → g ≤ 4294967295 → b ≤ 4294967295 →
      (Rgb.from_integral_components 4294967295 r g b).r = (r : ℚ) / 4294967295 ∧
      (Rgb.from_integral_components 4294967295 r g b).g = (g : ℚ) / 4294967295 ∧
      (Rgb.from_integral_components 4294967295 r g b).b = (b : ℚ) / 4294967295) ∧
    (r ≤ 18446744073709551615 → g ≤ 18446744073709551615 → b ≤ 18446744073709551615 →
      (Rgb.from_integral_components 18446744073709551615 r g b).r
          = (r : ℚ) / 18446744073709551615 ∧
      (Rgb.from_integral_components 18446744073709551615 r g b).g
          = (g : ℚ) / 18446744073709551615 ∧
      (Rgb.from_integral_components 18446744073709551615 r g b).b
          = (b : ℚ) / 18446744073709551615) :=
  ⟨fun _ _ _ => ⟨rfl, rfl, rfl⟩, fun _ _ _ => ⟨rfl, rfl, rfl⟩,
   fun _ _ _ => ⟨rfl, rfl, rfl⟩, fun _ _ _ => ⟨rfl, rfl, rfl⟩⟩

theorem c8_from_integral_components_witness :
    (Rgb.from_integral_components 255 51 102 255).r = (51 : ℚ) / 255 ∧
    (Rgb.from_integral_components 255 51 102 255).g = (102 : ℚ) / 255 ∧
    (Rgb.from_integral_components 255 51 102 255).b = (255 : ℚ) / 255 :=
  (c8_from_integral_components 51 102 255).1 (by decide) (by decide) (by decide)

/-- C9: every setter stores the given value exactly (no clamp) and leaves all
the other fields of the color unchanged, on `Rgb` and `Rgba` alike. -/
theorem c9_setters_exact_and_frame :
    ∀ (α : Type) (c : Rgb α) (d : Rgba α) (v : α),
      ((c.set_r v).r = v ∧ (c.set_r v).g = c.g ∧ (c.set_r v).b = c.b) ∧
      ((c.set_g v).g = v ∧ (c.set_g v).r = c.r ∧ (c.set_g v).b = c.b) ∧
      ((c.set_b v).b = v ∧ (c.set_b v).r = c.r ∧ (c.set_b v).g = c.g) ∧
      ((d.set_r v).r = v ∧ (d.set_r v).g = d.g ∧ (d.set_r v).b = d.b ∧
        (d.set_r v).a = d.a) ∧
      ((d.set_g v).g = v ∧ (d.set_g v).r = d.r ∧ (d.set_g v).b = d.b ∧
        (d.set_g v).a = d.a) ∧
      ((d.set_b v).b = v ∧ (d.set_b v).r = d.r ∧ (d.set_b v).g = d.g ∧
        (d.set_b v).a = d.a) ∧
      ((d.set_a v).a = v ∧ (d.set_a v).r = d.r ∧ (d.set_a v).g = d.g ∧
        (d.set_a v).b = d.b) :=
  fun _ _ _ _ =>
    ⟨⟨rfl, rfl, rfl⟩, ⟨rfl, rfl, rfl⟩, ⟨rfl, rfl, rfl⟩,
     ⟨rfl, rfl, rfl, rfl⟩, ⟨rfl, rfl, rfl, rfl⟩, ⟨rfl, rfl, rfl, rfl⟩,
     ⟨rfl, rfl, rfl, rfl⟩⟩

/-- C10: `Rgba::new()` (and `default()`, identical to it) sets r, g, b to
zero and alpha to one — nonzero whenever the channel type separates one from
zero — while `Rgb::new()` sets all three channels to zero. -/
theorem c10_rgba_new_alpha_one :
    ∀ (α : Type) [Zero α] [One α],
      (Rgba.new α).r = 0 ∧ (Rgba.new α).g = 0 ∧ (Rgba.new α).b = 0 ∧
      (Rgba.new α).a = 1 ∧
      Rgba.default α = Rgba.new α ∧
      Rgb.new α = Rgb.with_components 0 0 0 ∧
      Rgb.default α = Rgb.new α ∧
      ((1 : α) ≠ 0 → (Rgba.new α).a ≠ 0) :=
  fun _ => ⟨rfl, rfl, rfl, rfl, rfl, rfl, rfl, fun h => h⟩

theorem c10_rgba_new_alpha_one_witness :
    (Rgba.new ℚ).a = 1 ∧ (Rgba.new ℚ).a ≠ 0 :=
  ⟨(c10_rgba_new_alpha_one ℚ).2.2.2.1,
   (c10_rgba_new_alpha_one ℚ).2.2.2.2.2.2.2 (by norm_num)⟩

theorem ple_finite_iff (p q : ℚ) :
    ple FloatVal.pcmp (.finite p) (.finite q) = true ↔ p ≤ q := by
  unfold ple FloatVal.pcmp
  rcases lt_trichotomy p q with h | h | h
  · simp [h, h.le]
  · subst h; simp
  · simp [not_lt_of_gt h, h.ne', not_le_of_gt h, h.ne]

theorem plt_finite_iff (p q : ℚ) :
    plt FloatVal.pcmp (.finite p) (.finite q) = true ↔ p < q := by
  unfold plt FloatVal.pcmp
  rcases lt_trichotomy p q with h | h | h
  · simp [h]
  · subst h; simp
  · simp [not_lt_of_gt h, h.ne', h.ne, asymm h]

theorem pgt_finite_iff (p q : ℚ) :
    pgt FloatVal.pcmp (.finite p) (.finite q) = true ↔ q < p := by
  unfold pgt FloatVal.pcmp
  rcases lt_trichotomy p q with h | h | h
  · simp [h, asymm h]
  · subst h; simp
  · simp [not_lt_of_gt h, h.ne', h.ne, h]

theorem pge_one_zero : pge FloatVal.pcmp (.finite 1) (.finite 0) = true := by
  decide

theorem pmin_finite_one (q : ℚ) :
    pmin FloatVal.pcmp (.finite q) (.finite 1) = some (.finite (min q 1)) := by
  unfold pmin FloatVal.pcmp
  rcases lt_trichotomy q 1 with h | h | h
  · simp [h, min_eq_left h.le]
  · subst h; simp
  · simp [not_lt_of_gt h, h.ne', min_eq_right h.le]

theorem pmax_finite_zero (m : ℚ) :
    pmax FloatVal.pcmp (.finite m) (.finite 0) = some (.finite (max m 0)) := by
  unfold pmax FloatVal.pcmp
  rcases lt_trichotomy m 0 with h | h | h
  · simp [h, max_eq_right h.le]
  · subst h; simp
  · simp [not_lt_of_gt h, h.ne', max_eq_left h.le]

theorem normalised_finite (q : ℚ) :
    FloatVal.normalised (.finite q) = .ok (.finite (max (min q 1) 0)) := by
  unfold FloatVal.normalised clamp_to_zero_one clamp
  rw [pge_one_zero]
  simp only [if_true]
  rw [pmin_finite_one]
  simp only [Option.some_bind]
  rw [pmax_finite_zero]

/-- C4: for a non-NaN floating channel value, `normalised` is the identity on
[0,1] and returns the nearer bound outside it (0 below, 1 above). -/
theorem c4_float_normalised (x : FloatVal) (hx : x ≠ FloatVal.nan) :
    (ple FloatVal.pcmp (.finite 0) x = true → ple FloatVal.pcmp x (.finite 1) = true →
      FloatVal.normalised x = .ok x) ∧
    (plt FloatVal.pcmp x (.finite 0) = true →
      FloatVal.normalised x = .ok (.finite 0)) ∧
    (pgt FloatVal.pcmp x (.finite 1) = true →
      FloatVal.normalised x = .ok (.finite 1)) := by
  cases x with
  | nan => exact absurd rfl hx
  | negInf =>
      exact ⟨fun h _ => absurd h (by decide), fun _ => by decide,
        fun h => absurd h (by decide)⟩
  | posInf =>
      exact ⟨fun _ h => absurd h (by decide), fun h => absurd h (by decide),
        fun _ => by decide⟩
  | finite q =>
      refine ⟨fun h0 h1 => ?_, fun h => ?_, fun h => ?_⟩
      · rw [ple_finite_iff] at h0 h1
        rw [normalised_finite, min_eq_left h1, max_eq_left h0]
      · rw [plt_finite_iff] at h
        rw [normalised_finite, min_eq_left (by linarith), max_eq_right h.le]
      · rw [pgt_finite_iff] at h
        rw [normalised_finite, min_eq_right h.le, max_eq_left zero_le_one]

theorem c4_float_normalised_witness :
    FloatVal.normalised (.finite 2) = .ok (.finite 1) :=
  (c4_float_normalised (.finite 2) (by decide)).2.2 (by decide)

theorem pcmp_eq_compare (a b : FloatVal) (ha : a ≠ .nan) (hb : b ≠ .nan) :
    FloatVal.pcmp a b = some (compare a.toER b.toER) := by
  cases a with
  | nan => exact absurd rfl ha
  | negInf =>
      cases b with
      | nan => exact absurd rfl hb
      | negInf => exact congrArg some (compare_eq_iff_eq.mpr rfl).symm
      | finite q =>
          exact congrArg some (compare_lt_iff_lt.mpr (WithBot.bot_lt_coe _)).symm
      | posInf =>
          exact congrArg some (compare_lt_iff_lt.mpr (WithBot.bot_lt_coe _)).symm
  | finite p =>
      cases b with
      | nan => exact absurd rfl hb
      | negInf =>
          exact congrArg some (compare_gt_iff_gt.mpr (WithBot.bot_lt_coe _)).symm
      | finite q =>
          show (if p < q then some Ordering.lt
            else if p = q then some Ordering.eq else some Ordering.gt) = _
          rcases lt_trichotomy p q with h | h | h
          · rw [if_pos h]
            exact congrArg some (compare_lt_iff_lt.mpr
              (WithBot.coe_lt_coe.mpr (WithTop.coe_lt_coe.mpr h))).symm
          · subst h
            rw [if_neg (lt_irrefl p), if_pos rfl]
            exact congrArg some (compare_eq_iff_eq.mpr rfl).symm
          · rw [if_neg (not_lt_of_gt h), if_neg h.ne']
            exact congrArg some (compare_gt_iff_gt.mpr
              (WithBot.coe_lt_coe.mpr (WithTop.coe_lt_coe.mpr h))).symm
      | posInf =>
          exact congrArg some (compare_lt_iff_lt.mpr
            (WithBot.coe_lt_coe.mpr (WithTop.coe_lt_top _))).symm
  | posInf =>
      cases b with
      | nan => exact absurd rfl hb
      | negInf =>
          exact congrArg some (compare_gt_iff_gt.mpr (WithBot.bot_lt_coe _)).symm
      | finite q =>
          exact congrArg some (compare_gt_iff_gt.mpr
            (WithBot.coe_lt_coe.mpr (WithTop.coe_lt_top _))).symm
      | posInf => exact congrArg some (compare_eq_iff_eq.mpr rfl).symm

theorem ple_toER (a b : FloatVal) (ha : a ≠ .nan) (hb : b ≠ .nan) :
    ple FloatVal.pcmp a b = true ↔ a.toER ≤ b.toER := by
  unfold ple
  rw [pcmp_eq_compare a b ha hb]
  cases hc : compare a.toER b.toER with
  | lt => simp [le_of_lt (compare_lt_iff_lt.mp hc)]
  | eq => simp [le_of_eq (compare_eq_iff_eq.mp hc)]
  | gt => simp [not_le_of_gt (compare_gt_iff_gt.mp hc)]

theorem pge_toER (a b : FloatVal) (ha : a ≠ .nan) (hb : b ≠ .nan) :
    pge FloatVal.pcmp a b = true ↔ b.toER ≤ a.toER := by
  unfold pge
  rw [pcmp_eq_compare a b ha hb]
  cases hc : compare a.toER b.toER with
  | lt => simp [not_le_of_gt (compare_lt_iff_lt.mp hc)]
  | eq => simp [le_of_eq (compare_eq_iff_eq.mp hc).symm]
  | gt => simp [le_of_lt (compare_gt_iff_gt.mp hc)]

theorem pgt_toER (a b : FloatVal) (ha : a ≠ .nan) (hb : b ≠ .nan) :
    pgt FloatVal.pcmp a b = true ↔ b.toER < a.toER := by
  unfold pgt
  rw [pcmp_eq_compare a b ha hb]
  cases hc : compare a.toER b.toER with
  | lt => simp [asymm (compare_lt_iff_lt.mp hc)]
  | eq => simp [compare_eq_iff_eq.mp hc]
  | gt => simp [compare_gt_iff_gt.mp hc]

theorem ple_ne_nan (a b : FloatVal) (h : ple FloatVal.pcmp a b = true) :
    a ≠ .nan ∧ b ≠ .nan := by
  cases a <;> cases b <;> simp_all [ple, FloatVal.pcmp]

theorem pgt_ne_nan (a b : FloatVal) (h : pgt FloatVal.pcmp a b = true) :
    a ≠ .nan ∧ b ≠ .nan := by
  cases a <;> cases b <;> simp_all [pgt, FloatVal.pcmp]

theorem pmin_float (a b : FloatVal) (ha : a ≠ .nan) (hb : b ≠ .nan) :
    ∃ y, pmin FloatVal.pcmp a b = some y ∧ y ≠ .nan ∧
      y.toER = min a.toER b.toER := by
  unfold pmin
  rw [pcmp_eq_compare a b ha hb]
  cases hc : compare a.toER b.toER with
  | lt => exact ⟨a, rfl, ha, (min_eq_left (le_of_lt (compare_lt_iff_lt.mp hc))).symm⟩
  | eq => exact ⟨a, rfl, ha, (min_eq_left (le_of_eq (compare_eq_iff_eq.mp hc))).symm⟩
  | gt => exact ⟨b, rfl, hb, (min_eq_right (le_of_lt (compare_gt_iff_gt.mp hc))).symm⟩

theorem pmax_float (a b : FloatVal) (ha : a ≠ .nan) (hb : b ≠ .nan) :
    ∃ y, pmax FloatVal.pcmp a b = some y ∧ y ≠ .nan ∧
      y.toER = max a.toER b.toER := by
  unfold pmax
  rw [pcmp_eq_compare a b ha hb]
  cases hc : compare a.toER b.toER with
  | lt => exact ⟨b, rfl, hb, (max_eq_right (le_of_lt (compare_lt_iff_lt.mp hc))).symm⟩
  | eq => exact ⟨b, rfl, hb, (max_eq_right (le_of_eq (compare_eq_iff_eq.mp hc))).symm⟩
  | gt => exact ⟨a, rfl, ha, (max_eq_left (le_of_lt (compare_gt_iff_gt.mp hc))).symm⟩

theorem clamp_float_mem (x mn mx : FloatVal) (hx : x ≠ .nan)
    (h : ple FloatVal.pcmp mn mx = true) :
    ∃ y, clamp FloatVal.pcmp x mn mx = .ok y ∧ y ≠ .nan ∧
      ple FloatVal.pcmp mn y = true ∧ ple FloatVal.pcmp y mx = true := by
  obtain ⟨hmn, hmx⟩ := ple_ne_nan mn mx h
  rw [ple_toER mn mx hmn hmx] at h
  have hge : pge FloatVal.pcmp mx mn = true := (pge_toER mx mn hmx hmn).mpr h
  obtain ⟨y1, hy1, hy1n, hy1e⟩ := pmin_float x mx hx hmx
  obtain ⟨y2, hy2, hy2n, hy2e⟩ := pmax_float y1 mn hy1n hmn
  refine ⟨y2, ?_, hy2n, ?_, ?_⟩
  · unfold clamp
    rw [hge, if_pos rfl, hy1]
    simp only [Option.some_bind]
    rw [hy2]
  · rw [ple_toER mn y2 hmn hy2n, hy2e]
    exact le_max_right _ _
  · rw [ple_toER y2 mx hy2n hmx, hy2e, hy1e]
    exact max_le (min_le_right _ _) h

theorem ple_nat_iff (a b : ℕ) : ple natPcmp a b = true ↔ a ≤ b := by
  unfold ple natPcmp
  rcases lt_trichotomy a b with h | h | h
  · simp [h, h.le]
  · subst h; simp
  · simp [not_lt_of_gt h, h.ne', not_le_of_gt h, h.ne]

theorem pge_nat_iff (a b : ℕ) : pge natPcmp a b = true ↔ b ≤ a := by
  unfold pge natPcmp
  rcases lt_trichotomy a b with h | h | h
  · simp [h, not_le_of_gt h]
  · subst h; simp
  · simp [not_lt_of_gt h, h.ne', h.le]

theorem pmin_nat (a b : ℕ) : pmin natPcmp a b = some (min a b) := by
  unfold pmin natPcmp
  rcases lt_trichotomy a b with h | h | h
  · simp [h, min_eq_left h.le]
  · subst h; simp
  · simp [not_lt_of_gt h, h.ne', min_eq_right h.le]

theorem pmax_nat (a b : ℕ) : pmax natPcmp a b = some (max a b) := by
  unfold pmax natPcmp
  rcases lt_trichotomy a b with h | h | h
  · simp [h, max_eq_right h.le]
  · subst h; simp
  · simp [not_lt_of_gt h, h.ne', max_eq_left h.le]

theorem clamp_nat (x mn mx : ℕ) (h : mn ≤ mx) :
    clamp natPcmp x mn mx = .ok (max (min x mx) mn) := by
  unfold clamp
  rw [(pge_nat_iff mx mn).mpr h, if_pos rfl, pmin_nat]
  simp only [Option.some_bind]
  rw [pmax_nat]

/-- C6: with valid bounds `min ≤ max` and non-NaN channel values,
`clamp_scalar` succeeds and every channel of the result lies in
`[min, max]` — shown for the floating channel model and for the
(total-order) unsigned integral model. -/
theorem c6_clamp_scalar_bounds :
    (∀ (c : Rgb FloatVal) (mn mx : FloatVal),
      ple FloatVal.pcmp mn mx = true →
      c.r ≠ .nan → c.g ≠ .nan → c.b ≠ .nan →
      ∃ c', Rgb.clamp_scalar FloatVal.pcmp c mn mx = .ok c' ∧
        ple FloatVal.pcmp mn c'.r = true ∧ ple FloatVal.pcmp c'.r mx = true ∧
        ple FloatVal.pcmp mn c'.g = true ∧ ple FloatVal.pcmp c'.g mx = true ∧
        ple FloatVal.pcmp mn c'.b = true ∧ ple FloatVal.pcmp c'.b mx = true) ∧
    (∀ (c : Rgb ℕ) (mn mx : ℕ), mn ≤ mx →
      ∃ c', Rgb.clamp_scalar natPcmp c mn mx = .ok c' ∧
        mn ≤ c'.r ∧ c'.r ≤ mx ∧ mn ≤ c'.g ∧ c'.g ≤ mx ∧ mn ≤ c'.b ∧ c'.b ≤ mx) := by
  constructor
  · intro c mn mx h hr hg hb
    obtain ⟨yr, er, yrn, hr1, hr2⟩ := clamp_float_mem c.r mn mx hr h
    obtain ⟨yg, eg, ygn, hg1, hg2⟩ := clamp_float_mem c.g mn mx hg h
    obtain ⟨yb, eb, ybn, hb1, hb2⟩ := clamp_float_mem c.b mn mx hb h
    refine ⟨⟨yr, yg, yb⟩, ?_, hr1, hr2, hg1, hg2, hb1, hb2⟩
    unfold Rgb.clamp_scalar
    rw [er, eg, eb]
    rfl
  · intro c mn mx h
    refine ⟨⟨max (min c.r mx) mn, max (min c.g mx) mn, max (min c.b mx) mn⟩,
      ?_, le_max_right _ _, max_le (min_le_right _ _) h,
      le_max_right _ _, max_le (min_le_right _ _) h,
      le_max_right _ _, max_le (min_le_right _ _) h⟩
    unfold Rgb.clamp_scalar
    rw [clamp_nat c.r mn mx h, clamp_nat c.g mn mx h, clamp_nat c.b mn mx h]
    rfl

theorem c6_clamp_scalar_bounds_witness :
    ∃ c', Rgb.clamp_scalar FloatVal.pcmp
        (Rgb.with_components (.finite (1/10)) (.finite (9/10)) (.finite (3/2)))
        (.finite 0) (.finite 1) = .ok c' ∧
      ple FloatVal.pcmp (.finite 0) c'.r = true ∧
      ple FloatVal.pcmp c'.r (.finite 1) = true ∧
      ple FloatVal.pcmp (.finite 0) c'.g = true ∧
      ple FloatVal.pcmp c'.g (.finite 1) = true ∧
      ple FloatVal.pcmp (.finite 0) c'.b = true ∧
      ple FloatVal.pcmp c'.b (.finite 1) = true :=
  c6_clamp_scalar_bounds.1 _ (.finite 0) (.finite 1)
    (by decide) (by decide) (by decide) (by decide)

/-- C7: whenever the bounds passed to `clamp` (or `clamp_scalar`) satisfy
`min > max`, the call fails with the assertion panic and never returns a
value — shown for the floating and for the unsigned integral channel model. -/
theorem c7_clamp_assert_bad_bounds :
    (∀ x mn mx : FloatVal, pgt FloatVal.pcmp mn mx = true →
      clamp FloatVal.pcmp x mn mx = .error .assertFailed) ∧
    (∀ (c : Rgb FloatVal) (mn mx : FloatVal), pgt FloatVal.pcmp mn mx = true →
      Rgb.clamp_scalar FloatVal.pcmp c mn mx = .error .assertFailed) ∧
    (∀ x mn mx : ℕ, mx < mn → clamp natPcmp x mn mx = .error .assertFailed) ∧
    (∀ (c : Rgb ℕ) (mn mx : ℕ), mx < mn →
      Rgb.clamp_scalar natPcmp c mn mx = .error .assertFailed) := by
  have hfloat : ∀ x mn mx : FloatVal, pgt FloatVal.pcmp mn mx = true →
      clamp FloatVal.pcmp x mn mx = .error .assertFailed := by
    intro x mn mx h
    obtain ⟨hmn, hmx⟩ := pgt_ne_nan mn mx h
    rw [pgt_toER mn mx hmn hmx] at h
    have hge : pge FloatVal.pcmp mx mn = false := by
      cases hb : pge FloatVal.pcmp mx mn
      · rfl
      · exact absurd ((pge_toER mx mn hmx hmn).mp hb) (not_le_of_gt h)
    unfold clamp
    rw [hge, if_neg Bool.false_ne_true]
  have hnat : ∀ x mn mx : ℕ, mx < mn →
      clamp natPcmp x mn mx = .error .assertFailed := by
    intro x mn mx h
    have hge : pge natPcmp mx mn = false := by
      cases hb : pge natPcmp mx mn
      · rfl
      · exact absurd ((pge_nat_iff mx mn).mp hb) (not_le_of_gt h)
    unfold clamp
    rw [hge, if_neg Bool.false_ne_true]
  refine ⟨hfloat, fun c mn mx h => ?_, hnat, fun c mn mx h => ?_⟩
  · unfold Rgb.clamp_scalar
    rw [hfloat c.r mn mx h]
    rfl
  · unfold Rgb.clamp_scalar
    rw [hnat c.r mn mx h]
    rfl

theorem c7_clamp_assert_bad_bounds_witness :
    clamp natPcmp 5 1 0 = .error .assertFailed :=
  c7_clamp_assert_bad_bounds.2.2.1 5 1 0 (by decide)

end Simplecolor
